import Mathlib

/-!
# Tracearr core — verification of the live-event-stream client and import pipeline

Shallow embedding of the two core subsystems of the Tracearr repository:

* the Plex SSE connection manager (`apps/server/src/services/mediaServer/plex/eventSource.ts`,
  class `PlexEventSource`): message normalisation, play-session dispatch,
  reconnect scheduling with exponential backoff, heartbeat monitoring and
  connection-state notifications;
* the Tautulli import service (`TautulliService.importHistory` in the same
  source bundle) with its checkpoint/dedup resolver and progress counters;
* the BullMQ import queue front end (`enqueueImport`, `getActiveImportForServer`).

JavaScript values flowing through the normaliser are modelled by an inductive
`Json` type; the event-driven `PlexEventSource` object is modelled as an explicit
state machine whose events are the callbacks the runtime can deliver (connect
and disconnect calls, transport open/error, inbound messages, timer firings).
Machine integers/dates are modelled as `Int`/`Nat`; fractional arithmetic
(backoff delays, percent-complete) as `Rat`.
-/

namespace Tracearr

/-! ## JSON values

`JSON.parse` output as seen by `handleMessage`: the notification payloads are
arbitrary parsed JSON. `num` carries a rational, which covers every IEEE double
the parser can produce and keeps arithmetic exact. -/

inductive Json where
  | null : Json
  | bool (b : Bool) : Json
  | num (q : ℚ) : Json
  | str (s : String) : Json
  | arr (elems : List Json) : Json
  | obj (fields : List (String × Json)) : Json

/-- Property access `j[k]` on a parsed JSON value: a field of an object, and
`none` for a missing key or a non-object (JavaScript `undefined`). -/
def Json.lookup (j : Json) (k : String) : Option Json :=
  match j with
  | .obj fields => fields.lookup k
  | _ => none

/-- The JavaScript `in` operator restricted to parsed JSON: `k in obj`. -/
def Json.hasKey (j : Json) (k : String) : Bool :=
  (j.lookup k).isSome

/-- JavaScript truthiness of a parsed JSON value (objects and arrays are always
truthy; `null`, `false`, `0` and the empty string are falsy). -/
def Json.truthy : Json → Bool
  | .null => false
  | .bool b => b
  | .num q => decide (q ≠ 0)
  | .str s => decide (s ≠ "")
  | .arr _ => true
  | .obj _ => true

/-! ## Notification normaliser and play-session dispatch

`handleMessage` (eventSource.ts lines 219-254) recognises two wire shapes:
a direct `{ PlaySessionStateNotification: ... }` payload (named events) and the
wrapped `{ NotificationContainer: { type, PlaySessionStateNotification: one-or-many } }`
form.  `handlePlaySessionNotification` (lines 263-284) then dispatches on the
notification's own `state` field; its `_eventType` parameter (the container
`type` for wrapped payloads, the literal string `playing` for direct ones) is
unused by the code and carried here to state that independence. -/

/-- Subscriber events the manager can emit (`this.emit(...)` calls). -/
inductive EmitEvent where
  | stateChange (s : String) : EmitEvent
  | connError : EmitEvent
  | sessionPlaying (n : Json) : EmitEvent
  | sessionPaused (n : Json) : EmitEvent
  | sessionStopped (n : Json) : EmitEvent

/-- `handlePlaySessionNotification`: the `switch (notification.state)` of
eventSource.ts lines 269-283, returned as the list of emitted session events.
`eventType` is the second parameter (`_eventType`), ignored by the switch. -/
def dispatchPlaySession (n : Json) (_eventType : Json) : List EmitEvent :=
  match n.lookup "state" with
  | some (Json.str s) =>
      if s = "playing" then [EmitEvent.sessionPlaying n]
      else if s = "paused" then [EmitEvent.sessionPaused n]
      else if s = "stopped" then [EmitEvent.sessionStopped n]
      else if s = "buffering" then [EmitEvent.sessionPlaying n]
      else []
  | _ => []

/-- The direct-shape test of line 235:
`'PlaySessionStateNotification' in data && !('NotificationContainer' in data)`. -/
def matchesDirect (data : Json) : Bool :=
  data.hasKey "PlaySessionStateNotification" && !(data.hasKey "NotificationContainer")

/-- The wrapped-shape test of lines 242-243: `data.NotificationContainer`
exists and `container?.PlaySessionStateNotification` is truthy. -/
def matchesWrapped (data : Json) : Bool :=
  match data.lookup "NotificationContainer" with
  | some container =>
      match container.lookup "PlaySessionStateNotification" with
      | some psn => psn.truthy
      | none => false
  | none => false

/-- The container type passed to the handler for wrapped payloads
(`container.type`; `Json.null` models the absent field, which the unused
parameter never inspects). -/
def containerType (container : Json) : Json :=
  (container.lookup "type").getD Json.null

/-- Normalised result of one parsed payload: the `(notification, eventType)`
pairs `handleMessage` forwards to `handlePlaySessionNotification`, in order.
Follows eventSource.ts lines 235-250: the direct shape wins and is passed with
event type `'playing'`; otherwise a truthy wrapped notification value is
coerced to a list (`Array.isArray` check) and each element is passed with the
container's `type`. -/
def normalizeMessage (data : Json) : List (Json × Json) :=
  if matchesDirect data then
    match data.lookup "PlaySessionStateNotification" with
    | some n => [(n, Json.str "playing")]
    | none => []
  else
    match data.lookup "NotificationContainer" with
    | some container =>
        match container.lookup "PlaySessionStateNotification" with
        | some psn =>
            if psn.truthy then
              match psn with
              | Json.arr ns => ns.map fun n => (n, containerType container)
              | _ => [(psn, containerType container)]
            else []
        | none => []
    | none => []

/-- All session events one parsed payload causes `handleMessage` to emit. -/
def sessionEvents (data : Json) : List EmitEvent :=
  (normalizeMessage data).flatMap fun p => dispatchPlaySession p.1 p.2

/-! ## The `PlexEventSource` connection state machine

The class is event-driven; we model it as an explicit machine.  The state
records the fields of the class that the claims are about, plus the emitted
trace.  Timer handling is modelled precisely: `setTimeout` creates a pending
timer task and stores its handle; `clearTimeout(handle)` cancels at most the
task the handle refers to; a fired or cleared handle is stale.  For the single
reconnect-timer slot we therefore track the NUMBER of pending reconnect timer
tasks (`pendingReconnect`) together with whether the stored handle still refers
to a pending one (`reconnectHandleLive`): `scheduleReconnect` overwrites the
handle without clearing it (eventSource.ts lines 349-351), so an overwritten
pending task stays pending but becomes uncancellable.  The heartbeat slot is
always cleared before re-arming (lines 366-368), so a single `Bool` suffices. -/

/-- `SSEConnectionState` from `@tracearr/shared`. -/
inductive ConnState where
  | disconnected | connecting | connected | reconnecting | fallback
deriving DecidableEq, Repr

/-- Modelled from the spec: `SSE_CONFIG` lives in the shared package, outside
the staged sources; only the names of its fields appear in `eventSource.ts`.
The retry/delay constants are kept abstract, constrained in the theorems by the
properties the spec gives them (positive initial delay, multiplier at least 1,
initial delay at most the cap). -/
structure SSEConfig where
  INITIAL_RETRY_DELAY_MS : ℚ
  RETRY_MULTIPLIER : ℚ
  MAX_RETRY_DELAY_MS : ℚ
  MAX_RETRIES : ℕ

/-- An inbound SSE message payload, abstracting the `event.data` string:
`empty` is a falsy `event.data` (line 223), `malformed` a string
`JSON.parse` rejects (the `catch` of line 251), `parsed j` one it parses
to `j`. -/
inductive Msg where
  | empty | malformed
  | parsed (j : Json)

/-- The mutable fields of a `PlexEventSource` instance used by the claims,
plus the trace of emitted subscriber events. -/
structure ES where
  state : ConnState
  reconnectAttempts : ℕ
  /-- Number of reconnect timer tasks currently pending. -/
  pendingReconnect : ℕ
  /-- Whether `this.reconnectTimer` refers to a still-pending task. -/
  reconnectHandleLive : Bool
  /-- Whether the heartbeat timer is pending. -/
  heartbeat : Bool
  /-- Whether `this.eventSource` holds an open transport with live handlers. -/
  esOpen : Bool
  emitted : List EmitEvent

/-- The freshly constructed instance (field initialisers, lines 85-92). -/
def ES.init : ES :=
  { state := ConnState.disconnected, reconnectAttempts := 0,
    pendingReconnect := 0, reconnectHandleLive := false,
    heartbeat := false, esOpen := false, emitted := [] }

/-- The wire name of a connection state, as emitted on `connection:state`. -/
def ConnState.name : ConnState → String
  | .disconnected => "disconnected"
  | .connecting => "connecting"
  | .connected => "connected"
  | .reconnecting => "reconnecting"
  | .fallback => "fallback"

/-- `setState` (lines 393-398): update and emit only when the state changes. -/
def ES.setState (st : ES) (s : ConnState) : ES :=
  if st.state = s then st
  else { st with state := s,
                 emitted := st.emitted ++ [EmitEvent.stateChange s.name] }

/-- `clearTimers` (lines 379-388): `clearTimeout` both handles and null them.
Clearing cancels the handle-referenced reconnect task if it is still pending;
a task whose handle was overwritten stays pending. -/
def ES.clearTimers (st : ES) : ES :=
  { st with
    pendingReconnect :=
      if st.reconnectHandleLive then st.pendingReconnect - 1
      else st.pendingReconnect,
    reconnectHandleLive := false,
    heartbeat := false }

/-- `resetHeartbeatMonitor` (lines 365-374): clear then re-arm the heartbeat. -/
def ES.resetHeartbeatMonitor (st : ES) : ES :=
  { st with heartbeat := true }

/-- `scheduleReconnect` (lines 329-352).  At or above `MAX_RETRIES`: move to
`fallback` and return.  Otherwise move to `reconnecting`, increment the attempt
counter and create a new reconnect timer, overwriting (NOT clearing) the stored
handle. -/
def ES.scheduleReconnect (cfg : SSEConfig) (st : ES) : ES :=
  if cfg.MAX_RETRIES ≤ st.reconnectAttempts then
    st.setState ConnState.fallback
  else
    let st := st.setState ConnState.reconnecting
    { st with reconnectAttempts := st.reconnectAttempts + 1,
              pendingReconnect := st.pendingReconnect + 1,
              reconnectHandleLive := true }

/-- `handleError` (lines 289-324): emit `connection:error`, detach and close
the transport, then invoke the reconnect scheduler.  No timer is cleared. -/
def ES.handleError (cfg : SSEConfig) (st : ES) : ES :=
  let st := { st with emitted := st.emitted ++ [EmitEvent.connError],
                      esOpen := false }
  st.scheduleReconnect cfg

/-- `connect` (lines 140-195), success path: no-op when already `connected` or
`connecting`; otherwise move to `connecting`, clear the timers and open a new
transport (whose open/message/error callbacks arrive as later machine events). -/
def ES.connect (st : ES) : ES :=
  if st.state = ConnState.connected ∨ st.state = ConnState.connecting then st
  else
    let st := st.setState ConnState.connecting
    let st := st.clearTimers
    { st with esOpen := true }

/-- The `onopen` callback (lines 166-173): `connected`, reset the attempt
counter, start the heartbeat monitor. -/
def ES.onOpen (st : ES) : ES :=
  let st := st.setState ConnState.connected
  ES.resetHeartbeatMonitor { st with reconnectAttempts := 0 }

/-- `handleMessage` (lines 219-254): reset the heartbeat, drop empty or
unparseable payloads, otherwise emit the normalised session events.  The
function is total: parse failures and unrecognised shapes fall through to the
logged no-op, never to a thrown error. -/
def ES.handleMessage (st : ES) (m : Msg) : ES :=
  let st := st.resetHeartbeatMonitor
  match m with
  | Msg.empty => st
  | Msg.malformed => st
  | Msg.parsed j => { st with emitted := st.emitted ++ sessionEvents j }

/-- `disconnect` (lines 200-214): clear the timers, close the transport,
move to `disconnected`. -/
def ES.disconnect (st : ES) : ES :=
  let st := st.clearTimers
  let st := { st with esOpen := false }
  st.setState ConnState.disconnected

/-- The events the runtime can deliver to one `PlexEventSource` instance. -/
inductive Ev where
  /-- An external call to `connect()`. -/
  | connectCall
  /-- An external call to `disconnect()`. -/
  | disconnectCall
  /-- The transport's `onopen` callback. -/
  | opened
  /-- An inbound SSE message. -/
  | message (m : Msg)
  /-- The transport's `onerror` callback. -/
  | transportError
  /-- The heartbeat timer fires. -/
  | heartbeatFire
  /-- A pending reconnect timer fires; `viaHandle` tells whether it is the
  task the stored handle refers to or an overwritten (leaked) one. -/
  | reconnectFire (viaHandle : Bool)

/-- Whether an event can occur in a state: callbacks require a live transport,
timer firings a pending task of their kind. -/
def enabled (st : ES) : Ev → Bool
  | Ev.connectCall => true
  | Ev.disconnectCall => true
  | Ev.opened => st.esOpen
  | Ev.message _ => st.esOpen
  | Ev.transportError => st.esOpen
  | Ev.heartbeatFire => st.heartbeat
  | Ev.reconnectFire viaHandle =>
      if viaHandle then st.reconnectHandleLive
      else decide ((if st.reconnectHandleLive then 1 else 0) < st.pendingReconnect)

/-- One machine step.  A firing timer leaves the pending set (and, for the
handle-referenced reconnect task, leaves the stored handle stale) before its
callback body runs. -/
def step (cfg : SSEConfig) (st : ES) : Ev → ES
  | Ev.connectCall => st.connect
  | Ev.disconnectCall => st.disconnect
  | Ev.opened => st.onOpen
  | Ev.message m => st.handleMessage m
  | Ev.transportError => st.handleError cfg
  | Ev.heartbeatFire => ES.handleError cfg { st with heartbeat := false }
  | Ev.reconnectFire viaHandle =>
      ES.connect { st with
        pendingReconnect := st.pendingReconnect - 1,
        reconnectHandleLive := if viaHandle then false else st.reconnectHandleLive }

/-- Run a sequence of events from a state, refusing a disabled event. -/
def runValid (cfg : SSEConfig) : ES → List Ev → Option ES
  | st, [] => some st
  | st, e :: es => if enabled st e then runValid cfg (step cfg st e) es else none

/-! ## Backoff policy

The delay computation of `scheduleReconnect` (eventSource.ts lines 340-345):
`baseDelay = min(INITIAL_RETRY_DELAY_MS * RETRY_MULTIPLIER^(attempts-1), MAX_RETRY_DELAY_MS)`
and `delay = baseDelay + jitter` with `jitter = Math.random() * 1000`.
`attempts` here is the value of `this.reconnectAttempts` AFTER the increment of
line 337, so it ranges over `1 .. MAX_RETRIES`.  The jitter is passed in as a
parameter standing for the `Math.random() * 1000` sample. -/

/-- The clamped exponential base delay for attempt `n ≥ 1`. -/
def baseDelay (cfg : SSEConfig) (n : ℕ) : ℚ :=
  min (cfg.INITIAL_RETRY_DELAY_MS * cfg.RETRY_MULTIPLIER ^ (n - 1))
    cfg.MAX_RETRY_DELAY_MS

/-- The scheduled reconnect delay: base delay plus jitter. -/
def reconnectDelay (cfg : SSEConfig) (n : ℕ) (jitter : ℚ) : ℚ :=
  baseDelay cfg n + jitter

/-! ## Tautulli import: checkpoint/dedup resolver and history import

`TautulliService.importHistory` (tautulli service source, lines 565-813 of the
staged bundle).  The persistence interface is modelled as an in-memory table of
session rows with an auto-assigned integer primary key (`Db.nextId` supplies
the next fresh key, as the database's key generator does); `db.select ... limit 1`
becomes `List.find?`, `db.update ... where id = x` maps the patch over the rows
with key `x`, `db.insert` appends a fresh row.  External collaborators
(the user mapping and the GeoIP service) are parameters.  Timestamps are kept
in epoch milliseconds (`new Date(record.stopped * 1000)` etc.). -/

/-- The fields of a Tautulli history record the import reads. -/
structure HistoryRecord where
  reference_id : String
  user_id : ℕ
  rating_key : String
  /-- Unix seconds. -/
  started : ℤ
  /-- Unix seconds. -/
  stopped : ℤ
  /-- Seconds watched. -/
  duration : ℤ
  percent_complete : ℚ
  session_key : Option String
  media_type : String
  full_title : String
  title : String
  ip_address : String
  platform : String
  player : String
  product : String
  transcode_decision : String

/-- Result of `geoipService.lookup`. -/
structure Geo where
  city : Option String
  country : Option String
  lat : Option ℚ
  lon : Option ℚ

/-- A row of the `sessions` table, restricted to the columns the import
touches.  `id` is the primary key. -/
structure SessionRow where
  id : ℕ
  serverId : String
  userId : String
  sessionKey : String
  ratingKey : String
  externalSessionId : Option String
  state : String
  mediaType : String
  mediaTitle : String
  /-- Epoch ms. -/
  startedAt : ℤ
  stoppedAt : Option ℤ
  durationMs : Option ℤ
  totalDurationMs : Option ℤ
  progressMs : Option ℤ
  ipAddress : String
  geoCity : Option String
  geoCountry : Option String
  geoLat : Option ℚ
  geoLon : Option ℚ
  playerName : String
  platform : String
  quality : String
  isTranscode : Bool
  bitrate : Option ℤ

/-- The sessions table plus the key generator's next fresh primary key. -/
structure Db where
  rows : List SessionRow
  nextId : ℕ

/-- The lookup predicate of lines 674-683:
`serverId = ? AND externalSessionId = record.reference_id`. -/
def refMatch (serverId ref : String) (s : SessionRow) : Bool :=
  s.serverId == serverId && s.externalSessionId == some ref

/-- The fallback lookup predicate of lines 705-717:
`serverId = ? AND userId = ? AND ratingKey = ? AND startedAt = ?`. -/
def timeMatch (serverId userId ratingKey : String) (startedAt : ℤ)
    (s : SessionRow) : Bool :=
  s.serverId == serverId && s.userId == userId &&
    s.ratingKey == ratingKey && s.startedAt == startedAt

/-- `UPDATE sessions SET ... WHERE id = key`: patch the rows with that key. -/
def updateRows (rows : List SessionRow) (key : ℕ)
    (f : SessionRow → SessionRow) : List SessionRow :=
  rows.map fun s => if s.id = key then f s else s

/-- The duplicate-by-reference update (lines 688-697): set stop time, duration
and the progress computed from `percent_complete` against the existing row's
`totalDurationMs ?? 0` (`Math.round` is `round` on rationals). -/
def patchByRef (r : HistoryRecord) (existing : SessionRow)
    (s : SessionRow) : SessionRow :=
  { s with stoppedAt := some (r.stopped * 1000),
           durationMs := some (r.duration * 1000),
           progressMs := some (round
             ((r.percent_complete / 100) * ((existing.totalDurationMs.getD 0 : ℤ) : ℚ))) }

/-- The duplicate-by-time-window update (lines 722-729): backfill the external
reference id and set the terminal fields. -/
def patchByTime (r : HistoryRecord) (s : SessionRow) : SessionRow :=
  { s with externalSessionId := some r.reference_id,
           stoppedAt := some (r.stopped * 1000),
           durationMs := some (r.duration * 1000) }

/-- The media-type mapping of lines 740-745 (unrecognised types default to
`movie`). -/
def mapMediaType (t : String) : String :=
  if t = "episode" then "episode" else if t = "track" then "track" else "movie"

/-- The freshly inserted row of lines 748-772. -/
def newSessionRow (serverId userId : String) (geo : String → Geo)
    (key : ℕ) (r : HistoryRecord) : SessionRow :=
  let g := geo r.ip_address
  { id := key,
    serverId := serverId,
    userId := userId,
    sessionKey := r.session_key.getD ("tautulli-" ++ r.reference_id),
    ratingKey := r.rating_key,
    externalSessionId := some r.reference_id,
    state := "stopped",
    mediaType := mapMediaType r.media_type,
    mediaTitle := if r.full_title ≠ "" then r.full_title else r.title,
    startedAt := r.started * 1000,
    stoppedAt := some (r.stopped * 1000),
    durationMs := some (r.duration * 1000),
    totalDurationMs := none,
    progressMs := none,
    ipAddress := if r.ip_address ≠ "" then r.ip_address else "0.0.0.0",
    geoCity := g.city,
    geoCountry := g.country,
    geoLat := g.lat,
    geoLon := g.lon,
    playerName := if r.player ≠ "" then r.player else r.product,
    platform := r.platform,
    quality := if r.transcode_decision = "transcode" then "Transcode" else "Direct",
    isTranscode := r.transcode_decision == "transcode",
    bitrate := none }

/-- Outcome of one record of the import loop: which counter the record
increments (the three dedup/skip paths all count as `skipped`, lines
666-671, 699-701 and 731-733). -/
inductive Outcome where
  | imported | skipped | error
deriving DecidableEq, Repr

/-- The body of the per-record loop of `importHistory` (lines 660-786), i.e.
the checkpoint/dedup resolver plus persistence.  `fails` stands for the
try-block throwing (a per-record fault caught at line 776: the record is
counted as an error and the table is left as it was).  Otherwise: unknown user
⇒ skip; match by external reference ⇒ update terminal fields, skip; match by
(server, user, media, start) ⇒ backfill reference and terminal fields, skip;
else insert a fresh row. -/
def importRecord (serverId : String) (userMap : ℕ → Option String)
    (geo : String → Geo) (db : Db) (r : HistoryRecord) (fails : Bool) :
    Db × Outcome :=
  if fails then (db, Outcome.error) else
  match userMap r.user_id with
  | none => (db, Outcome.skipped)
  | some userId =>
    match db.rows.find? (refMatch serverId r.reference_id) with
    | some existing =>
        ({ db with rows := updateRows db.rows existing.id (patchByRef r existing) },
         Outcome.skipped)
    | none =>
      match db.rows.find? (timeMatch serverId userId r.rating_key (r.started * 1000)) with
      | some existingSession =>
          ({ db with rows := updateRows db.rows existingSession.id (patchByTime r) },
           Outcome.skipped)
      | none =>
          ({ rows := db.rows ++ [newSessionRow serverId userId geo db.nextId r],
             nextId := db.nextId + 1 },
           Outcome.imported)

/-- The progress object of lines 602-612 (plus `updatedRecords`, which the
shared `TautulliImportProgress` type carries and which this version of
`importHistory` never increments). -/
structure Progress where
  totalRecords : ℕ
  processedRecords : ℕ
  importedRecords : ℕ
  updatedRecords : ℕ
  skippedRecords : ℕ
  errorRecords : ℕ
deriving Repr

/-- Initial progress (lines 602-612, counters all zero). -/
def Progress.init (total : ℕ) : Progress :=
  { totalRecords := total, processedRecords := 0, importedRecords := 0,
    updatedRecords := 0, skippedRecords := 0, errorRecords := 0 }

/-- One iteration of the record loop: `progress.processedRecords++` first
(line 661), then the resolver, then exactly one outcome counter. -/
def recordStep (serverId : String) (userMap : ℕ → Option String)
    (geo : String → Geo) (st : Db × Progress) (x : HistoryRecord × Bool) :
    Db × Progress :=
  let p := { st.2 with processedRecords := st.2.processedRecords + 1 }
  let r := importRecord serverId userMap geo st.1 x.1 x.2
  match r.2 with
  | Outcome.imported =>
      (r.1, { p with importedRecords := p.importedRecords + 1 })
  | Outcome.skipped =>
      (r.1, { p with skippedRecords := p.skippedRecords + 1 })
  | Outcome.error =>
      (r.1, { p with errorRecords := p.errorRecords + 1 })

/-- The whole record loop of one import job over the fetched records in page
order (pages are processed strictly in order, so their concatenation is the
processing order); each record is paired with its per-record fault flag. -/
def runImport (serverId : String) (userMap : ℕ → Option String)
    (geo : String → Geo) (db : Db) (records : List (HistoryRecord × Bool)) :
    Db × Progress :=
  records.foldl (recordStep serverId userMap geo)
    (db, Progress.init records.length)

/-! ## Import queue front end

`enqueueImport` / `getActiveImportForServer` from the BullMQ queue module.
The queue substrate is modelled as the list of its jobs with their states;
`getJobs(['active', 'waiting', 'delayed'])` is the sublist in those states and
BullMQ's `add` appends a new job in `waiting` state under a fresh id. -/

/-- BullMQ job states relevant here. -/
inductive JobState where
  | waiting | active | delayed | completed | failed
deriving DecidableEq, Repr

/-- A queued import job (`ImportJobData` plus its id and queue state). -/
structure QueuedJob where
  id : ℕ
  serverId : String
  userId : String
  jstate : JobState
deriving Repr

/-- `getActiveImportForServer`: linear scan of the waiting/active/delayed job
sets for one with the given server id, returning its id. -/
def getActiveImportForServer (queue : List QueuedJob) (serverId : String) :
    Option ℕ :=
  ((queue.filter fun j =>
      j.jstate == JobState.active || j.jstate == JobState.waiting ||
        j.jstate == JobState.delayed).find? fun j =>
      j.serverId == serverId).map fun j => j.id

/-- `enqueueImport`: reject with a conflict when a waiting/active/delayed job
for the server exists, otherwise add a fresh `waiting` job and return its id.
The second component is the queue afterwards (unchanged on rejection). -/
def enqueueImport (queue : List QueuedJob) (nextId : ℕ)
    (serverId userId : String) : Except String ℕ × List QueuedJob :=
  match getActiveImportForServer queue serverId with
  | some existingJobId =>
      (Except.error ("Import already in progress for server " ++ serverId ++
        " (job " ++ toString existingJobId ++ ")"), queue)
  | none =>
      (Except.ok nextId,
       queue ++ [{ id := nextId, serverId := serverId, userId := userId,
                   jstate := JobState.waiting }])

/-! ## Theorems -/

/-- C8: for every normalised play-session notification the dispatcher emits
exactly one subscriber event determined by the notification's `state`:
`playing` and `buffering` both emit "session playing", `paused` emits
"session paused", `stopped` emits "session stopped", and any other state
value (another string, a non-string, or a missing field) emits nothing. -/
theorem c8_dispatch_by_state (n : Json) (t : Json) :
    ((n.lookup "state" = some (Json.str "playing") ∨
        n.lookup "state" = some (Json.str "buffering")) →
      dispatchPlaySession n t = [EmitEvent.sessionPlaying n]) ∧
    (n.lookup "state" = some (Json.str "paused") →
      dispatchPlaySession n t = [EmitEvent.sessionPaused n]) ∧
    (n.lookup "state" = some (Json.str "stopped") →
      dispatchPlaySession n t = [EmitEvent.sessionStopped n]) ∧
    (∀ s : String, n.lookup "state" = some (Json.str s) →
      s ≠ "playing" → s ≠ "paused" → s ≠ "stopped" → s ≠ "buffering" →
      dispatchPlaySession n t = []) ∧
    (∀ v : Json, n.lookup "state" = some v → (∀ s : String, v ≠ Json.str s) →
      dispatchPlaySession n t = []) ∧
    (n.lookup "state" = none → dispatchPlaySession n t = []) := by
  refine ⟨?_, ?_, ?_, ?_, ?_, ?_⟩
  · rintro (h | h) <;> simp [dispatchPlaySession, h]
  · intro h; simp [dispatchPlaySession, h]
  · intro h; simp [dispatchPlaySession, h]
  · intro s h h1 h2 h3 h4
    simp [dispatchPlaySession, h, h1, h2, h3, h4]
  · intro v h hv
    cases v with
    | str s => exact absurd rfl (hv s)
    | null => simp [dispatchPlaySession, h]
    | bool b => simp [dispatchPlaySession, h]
    | num q => simp [dispatchPlaySession, h]
    | arr xs => simp [dispatchPlaySession, h]
    | obj fs => simp [dispatchPlaySession, h]
  · intro h; simp [dispatchPlaySession, h]

/-- C4: for every session-state object `s`, the direct-shape payload
`{PlaySessionStateNotification: s}`, the wrapped-shape payload
`{NotificationContainer: {type: t, PlaySessionStateNotification: s}}` and the
wrapped shape with `s` in a one-element array all produce the same sequence of
emitted session events, for every container `type` value `t`; and the dispatch
ignores the event-type argument entirely. -/
theorem c4_shape_independence (fields : List (String × Json)) (t : Json) :
    (sessionEvents
        (Json.obj [("PlaySessionStateNotification", Json.obj fields)]) =
      sessionEvents
        (Json.obj [("NotificationContainer",
          Json.obj [("type", t),
            ("PlaySessionStateNotification", Json.obj fields)])])) ∧
    (sessionEvents
        (Json.obj [("PlaySessionStateNotification", Json.obj fields)]) =
      sessionEvents
        (Json.obj [("NotificationContainer",
          Json.obj [("type", t),
            ("PlaySessionStateNotification", Json.arr [Json.obj fields])])])) ∧
    (∀ n t1 t2 : Json, dispatchPlaySession n t1 = dispatchPlaySession n t2) := by
  refine ⟨?_, ?_, fun n t1 t2 => rfl⟩ <;>
    · simp [sessionEvents, normalizeMessage, matchesDirect, Json.hasKey,
        Json.lookup, List.lookup, Json.truthy, containerType]
      rfl

/-- A parsed payload recognised by neither wire shape normalises to the empty
sequence (eventSource.ts falls through lines 235-250 emitting nothing). -/
theorem normalizeMessage_eq_nil (j : Json) (h1 : matchesDirect j = false)
    (h2 : matchesWrapped j = false) : normalizeMessage j = [] := by
  rw [normalizeMessage, if_neg (by simp [h1])]
  rcases hc : j.lookup "NotificationContainer" with _ | c
  · rfl
  · rcases hp : c.lookup "PlaySessionStateNotification" with _ | psn
    · simp [hp]
    · have ht : psn.truthy = false := by
        simpa [matchesWrapped, hc, hp] using h2
      simp [hp, ht]

/-- C9: an inbound message whose payload is empty, fails parsing, or parses to
a value matching neither the direct nor the container shape is a no-op: the
handler emits no event at all, leaves the connection state unchanged, and (the
embedding being a total function, the parse failure having been caught) never
propagates an error. -/
theorem c9_malformed_noop (st : ES) (m : Msg)
    (h : m = Msg.empty ∨ m = Msg.malformed ∨
      ∃ j, m = Msg.parsed j ∧ matchesDirect j = false ∧ matchesWrapped j = false) :
    (st.handleMessage m).state = st.state ∧
    (st.handleMessage m).emitted = st.emitted := by
  rcases h with h | h | ⟨j, h, h1, h2⟩ <;> subst h
  · exact ⟨rfl, rfl⟩
  · exact ⟨rfl, rfl⟩
  · refine ⟨rfl, ?_⟩
    simp [ES.handleMessage, ES.resetHeartbeatMonitor, sessionEvents,
      normalizeMessage_eq_nil j h1 h2]

/-- Witness for C9 at a concrete input: the parsed payload `42` (a JSON value
matching neither shape) delivered to the freshly constructed machine. -/
theorem c9_malformed_noop_witness :
    ((Msg.parsed (Json.num 42) = Msg.empty ∨
        Msg.parsed (Json.num 42) = Msg.malformed ∨
        ∃ j, Msg.parsed (Json.num 42) = Msg.parsed j ∧
          matchesDirect j = false ∧ matchesWrapped j = false)) ∧
    (ES.init.handleMessage (Msg.parsed (Json.num 42))).state = ES.init.state ∧
    (ES.init.handleMessage (Msg.parsed (Json.num 42))).emitted = ES.init.emitted := by
  refine ⟨Or.inr (Or.inr ⟨Json.num 42, rfl, rfl, rfl⟩), ?_⟩
  exact c9_malformed_noop ES.init (Msg.parsed (Json.num 42))
    (Or.inr (Or.inr ⟨Json.num 42, rfl, rfl, rfl⟩))

/-- After `disconnect()` the state is `disconnected`. -/
theorem disconnect_state (st : ES) :
    st.disconnect.state = ConnState.disconnected := by
  rw [ES.disconnect, ES.setState]
  split
  · assumption
  · rfl

/-- After `disconnect()` both timer handles are cleared and the transport is
closed. -/
theorem disconnect_flags (st : ES) :
    st.disconnect.reconnectHandleLive = false ∧ st.disconnect.heartbeat = false ∧
      st.disconnect.esOpen = false := by
  refine ⟨?_, ?_, ?_⟩ <;> (rw [ES.disconnect, ES.setState]; split <;> rfl)

/-- A state already fully disconnected is a fixed point of `disconnect()`. -/
theorem disconnect_fixed (d : ES) (h1 : d.state = ConnState.disconnected)
    (h2 : d.reconnectHandleLive = false) (h3 : d.heartbeat = false)
    (h4 : d.esOpen = false) : d.disconnect = d := by
  cases d
  simp_all [ES.disconnect, ES.clearTimers, ES.setState]

/-- C10: a `connection:state` notification is emitted exactly when the state
changes: `setState` with the current state emits nothing (and changes nothing),
`setState` with a different state emits; hence a second `disconnect()` in a row
is a complete no-op, and `connect()` while already `connecting` or `connected`
changes nothing and emits nothing. -/
theorem c10_state_change_emits_iff (st : ES) (s : ConnState) :
    ((st.setState s).emitted = st.emitted ↔ st.state = s) ∧
    (st.state = s → st.setState s = st) ∧
    (st.disconnect.disconnect = st.disconnect) ∧
    (st.state = ConnState.connecting ∨ st.state = ConnState.connected →
      st.connect = st) := by
  refine ⟨⟨fun h => ?_, fun h => ?_⟩, fun h => ?_, ?_, fun h => ?_⟩
  · by_contra hne
    rw [ES.setState, if_neg hne] at h
    simpa using congrArg List.length h
  · rw [ES.setState, if_pos h]
  · rw [ES.setState, if_pos h]
  · obtain ⟨h2, h3, h4⟩ := disconnect_flags st
    exact disconnect_fixed st.disconnect (disconnect_state st) h2 h3 h4
  · rw [ES.connect, if_pos (by tauto)]

/-- C2: for every attempt count `n ≥ 1` the scheduled delay is
`min(initial * multiplier^(n-1), max) + jitter` with jitter in `[0, 1000)`;
consequently `initial ≤ delay − jitter ≤ max`, and `delay − jitter` is
non-decreasing in `n` (until clamped at `max`, where it stays constant).
The config constants are abstract, constrained as the spec constrains them:
multiplier at least 1 and `0 < initial ≤ max`. -/
theorem c2_backoff_delay (cfg : SSEConfig) (hmul : 1 ≤ cfg.RETRY_MULTIPLIER)
    (hinit : 0 < cfg.INITIAL_RETRY_DELAY_MS)
    (hcap : cfg.INITIAL_RETRY_DELAY_MS ≤ cfg.MAX_RETRY_DELAY_MS)
    (n : ℕ) (hn : 1 ≤ n) (jitter : ℚ) (hj0 : 0 ≤ jitter) (hj1 : jitter < 1000) :
    reconnectDelay cfg n jitter =
      min (cfg.INITIAL_RETRY_DELAY_MS * cfg.RETRY_MULTIPLIER ^ (n - 1))
        cfg.MAX_RETRY_DELAY_MS + jitter ∧
    cfg.INITIAL_RETRY_DELAY_MS ≤ reconnectDelay cfg n jitter - jitter ∧
    reconnectDelay cfg n jitter - jitter ≤ cfg.MAX_RETRY_DELAY_MS ∧
    ∀ m : ℕ, n ≤ m → baseDelay cfg n ≤ baseDelay cfg m := by
  have hbase : ∀ k : ℕ, reconnectDelay cfg k jitter - jitter = baseDelay cfg k := by
    intro k; rw [reconnectDelay, add_sub_cancel_right]
  have hpow : ∀ k : ℕ, (1 : ℚ) ≤ cfg.RETRY_MULTIPLIER ^ k := by
    intro k
    calc (1 : ℚ) = 1 ^ k := (one_pow k).symm
    _ ≤ cfg.RETRY_MULTIPLIER ^ k := pow_le_pow_left₀ (by norm_num) hmul k
  refine ⟨rfl, ?_, ?_, ?_⟩
  · rw [hbase, baseDelay]
    exact le_min (le_mul_of_one_le_right hinit.le (hpow (n - 1))) hcap
  · rw [hbase, baseDelay]
    exact min_le_right _ _
  · intro m hm
    rw [baseDelay, baseDelay]
    refine min_le_min ?_ le_rfl
    exact mul_le_mul_of_nonneg_left
      (pow_le_pow_right₀ hmul (Nat.sub_le_sub_right hm 1)) hinit.le

/-- A concrete configuration (1 s initial delay, doubling, 30 s cap, 5 retries)
used to instantiate the backoff and scheduler theorems. -/
def sseConfigExample : SSEConfig :=
  { INITIAL_RETRY_DELAY_MS := 1000, RETRY_MULTIPLIER := 2,
    MAX_RETRY_DELAY_MS := 30000, MAX_RETRIES := 5 }

/-- Witness for C2 at attempt 3 with jitter 250 under `sseConfigExample`. -/
theorem c2_backoff_delay_witness :
    ((1 : ℚ) ≤ sseConfigExample.RETRY_MULTIPLIER ∧
      (0 : ℚ) < sseConfigExample.INITIAL_RETRY_DELAY_MS ∧
      sseConfigExample.INITIAL_RETRY_DELAY_MS ≤ sseConfigExample.MAX_RETRY_DELAY_MS ∧
      1 ≤ 3 ∧ (0 : ℚ) ≤ 250 ∧ (250 : ℚ) < 1000) ∧
    reconnectDelay sseConfigExample 3 250 =
      min (sseConfigExample.INITIAL_RETRY_DELAY_MS *
        sseConfigExample.RETRY_MULTIPLIER ^ (3 - 1))
        sseConfigExample.MAX_RETRY_DELAY_MS + 250 ∧
    sseConfigExample.INITIAL_RETRY_DELAY_MS ≤ reconnectDelay sseConfigExample 3 250 - 250 ∧
    reconnectDelay sseConfigExample 3 250 - 250 ≤ sseConfigExample.MAX_RETRY_DELAY_MS ∧
    baseDelay sseConfigExample 3 ≤ baseDelay sseConfigExample 7 := by
  have h := c2_backoff_delay sseConfigExample (by norm_num [sseConfigExample])
    (by norm_num [sseConfigExample]) (by norm_num [sseConfigExample])
    3 (by norm_num) 250 (by norm_num) (by norm_num)
  exact ⟨⟨by norm_num [sseConfigExample], by norm_num [sseConfigExample],
    by norm_num [sseConfigExample], by norm_num, by norm_num, by norm_num⟩,
    h.1, h.2.1, h.2.2.1, h.2.2.2 7 (by norm_num)⟩

/-- The in-flight test `getActiveImportForServer` scans for. -/
def inFlightFor (serverId : String) (j : QueuedJob) : Prop :=
  j.serverId = serverId ∧
    (j.jstate = JobState.waiting ∨ j.jstate = JobState.active ∨
      j.jstate = JobState.delayed)

/-- The linear scan finds a job exactly when a waiting/active/delayed job for
the server is in the queue. -/
theorem getActiveImportForServer_eq_none (queue : List QueuedJob)
    (serverId : String) :
    getActiveImportForServer queue serverId = none ↔
      ∀ j ∈ queue, ¬ inFlightFor serverId j := by
  rw [getActiveImportForServer, Option.map_eq_none', List.find?_eq_none]
  constructor
  · intro h j hj ⟨hs, hst⟩
    refine h j (List.mem_filter.mpr ⟨hj, ?_⟩) (by simp [hs])
    rcases hst with h1 | h1 | h1 <;> simp [h1]
  · intro h j hj hs
    rcases List.mem_filter.mp hj with ⟨hjq, hstate⟩
    refine h j hjq ⟨by simpa using hs, ?_⟩
    rcases Bool.or_eq_true_iff.mp hstate with h1 | h1
    · rcases Bool.or_eq_true_iff.mp h1 with h2 | h2
      · exact Or.inr (Or.inl (by simpa using h2))
      · exact Or.inl (by simpa using h2)
    · exact Or.inr (Or.inr (by simpa using h1))

/-- C6: `enqueueImport` rejects with a conflict — creating no job, leaving the
queue unchanged — exactly when the queue already holds a waiting, active or
delayed job for that server; otherwise (in particular once every job for the
server is in a terminal state) it succeeds, returns the fresh job id, and
appends the new `waiting` job. -/
theorem c6_enqueue_conflict (queue : List QueuedJob) (nextId : ℕ)
    (serverId userId : String) :
    ((∃ j ∈ queue, inFlightFor serverId j) →
      (∃ msg, (enqueueImport queue nextId serverId userId).1 = Except.error msg) ∧
      (enqueueImport queue nextId serverId userId).2 = queue) ∧
    ((∀ j ∈ queue, ¬ inFlightFor serverId j) →
      (enqueueImport queue nextId serverId userId).1 = Except.ok nextId ∧
      (enqueueImport queue nextId serverId userId).2 =
        queue ++ [{ id := nextId, serverId := serverId, userId := userId,
                    jstate := JobState.waiting }]) := by
  constructor
  · intro ⟨j, hj, hin⟩
    rcases hsome : getActiveImportForServer queue serverId with _ | jobId
    · exact absurd hin
        (((getActiveImportForServer_eq_none queue serverId).mp hsome) j hj)
    · rw [enqueueImport, hsome]
      exact ⟨⟨_, rfl⟩, rfl⟩
  · intro h
    rw [enqueueImport, (getActiveImportForServer_eq_none queue serverId).mpr h]
    exact ⟨rfl, rfl⟩

/-! ### Timer bookkeeping invariants of the connection machine -/

theorem setState_state (st : ES) (s : ConnState) : (st.setState s).state = s := by
  rw [ES.setState]; split
  · assumption
  · rfl

theorem setState_pending (st : ES) (s : ConnState) :
    (st.setState s).pendingReconnect = st.pendingReconnect := by
  rw [ES.setState]; split <;> rfl

theorem setState_handleLive (st : ES) (s : ConnState) :
    (st.setState s).reconnectHandleLive = st.reconnectHandleLive := by
  rw [ES.setState]; split <;> rfl

theorem setState_heartbeat (st : ES) (s : ConnState) :
    (st.setState s).heartbeat = st.heartbeat := by
  rw [ES.setState]; split <;> rfl

theorem setState_esOpen (st : ES) (s : ConnState) :
    (st.setState s).esOpen = st.esOpen := by
  rw [ES.setState]; split <;> rfl

theorem setState_attempts (st : ES) (s : ConnState) :
    (st.setState s).reconnectAttempts = st.reconnectAttempts := by
  rw [ES.setState]; split <;> rfl

/-- Invariant induction over valid runs: a property of the initial state
preserved by every enabled step holds at every reachable state. -/
theorem runValid_invariant (cfg : SSEConfig) (P : ES → Prop)
    (hstep : ∀ st e, enabled st e = true → P st → P (step cfg st e)) :
    ∀ (evs : List Ev) (s0 st : ES), P s0 → runValid cfg s0 evs = some st →
      P st := by
  intro evs
  induction evs with
  | nil => intro s0 st h0 hr; cases hr; assumption
  | cons e es ih =>
    intro s0 st h0 hr
    rw [runValid] at hr
    by_cases he : enabled s0 e = true
    · rw [if_pos he] at hr
      exact ih _ _ (hstep s0 e he h0) hr
    · rw [if_neg he] at hr; cases hr

/-- Invariant induction over valid runs restricted to an event subset. -/
theorem runValid_invariant_of_mem (cfg : SSEConfig) (P : ES → Prop)
    (allowed : Ev → Prop)
    (hstep : ∀ st e, allowed e → enabled st e = true → P st → P (step cfg st e)) :
    ∀ (evs : List Ev) (s0 st : ES), (∀ e ∈ evs, allowed e) → P s0 →
      runValid cfg s0 evs = some st → P st := by
  intro evs
  induction evs with
  | nil => intro s0 st _ h0 hr; cases hr; assumption
  | cons e es ih =>
    intro s0 st hall h0 hr
    rw [runValid] at hr
    by_cases he : enabled s0 e = true
    · rw [if_pos he] at hr
      exact ih _ _ (fun x hx => hall x (List.mem_cons_of_mem e hx))
        (hstep s0 e (hall e (List.mem_cons_self e es)) he h0) hr
    · rw [if_neg he] at hr; cases hr

/-- The single-pending-reconnect-timer invariant, which holds as long as no
heartbeat timeout fires while a reconnect is pending: at most one reconnect
task pends, a pending task is the handle-referenced one, and no reconnect task
pends while a transport is open. -/
def TimerInv (st : ES) : Prop :=
  st.pendingReconnect ≤ 1 ∧
    (st.pendingReconnect = 1 → st.reconnectHandleLive = true) ∧
    (st.esOpen = true → st.pendingReconnect = 0)

theorem timerInv_init : TimerInv ES.init :=
  ⟨by simp [ES.init], by simp [ES.init], by simp [ES.init]⟩

/-- A state with no pending reconnect task satisfies `TimerInv`. -/
theorem timerInv_of_zero (st : ES) (hp : st.pendingReconnect = 0) : TimerInv st :=
  ⟨by omega, fun h => absurd h (by omega), fun _ => hp⟩

/-- Under the first two `TimerInv` conjuncts, `clearTimers` cancels every
pending reconnect task. -/
theorem clearTimers_pending_eq_zero (st : ES) (h1 : st.pendingReconnect ≤ 1)
    (h2 : st.pendingReconnect = 1 → st.reconnectHandleLive = true) :
    st.clearTimers.pendingReconnect = 0 := by
  rw [ES.clearTimers]
  rcases hb : st.reconnectHandleLive with _ | _
  · have hp : st.pendingReconnect = 0 := by
      by_contra h
      have h4 := h2 (by omega)
      rw [hb] at h4
      cases h4
    simp [hb, hp]
  · simp [hb]
    omega

/-- When `connect` proceeds (the state is neither `connected` nor
`connecting`), its `clearTimers` call cancels every pending reconnect task. -/
theorem connect_proceed_pending (st : ES) (h1 : st.pendingReconnect ≤ 1)
    (h2 : st.pendingReconnect = 1 → st.reconnectHandleLive = true)
    (hns : ¬(st.state = ConnState.connected ∨ st.state = ConnState.connecting)) :
    st.connect.pendingReconnect = 0 := by
  rw [ES.connect, if_neg hns]
  show (st.setState ConnState.connecting).clearTimers.pendingReconnect = 0
  exact clearTimers_pending_eq_zero _ (by rw [setState_pending]; exact h1)
    (by rw [setState_pending, setState_handleLive]; exact h2)

/-- `disconnect` cancels every pending reconnect task (under the handle
discipline of `TimerInv`). -/
theorem disconnect_pending (st : ES) (h1 : st.pendingReconnect ≤ 1)
    (h2 : st.pendingReconnect = 1 → st.reconnectHandleLive = true) :
    st.disconnect.pendingReconnect = 0 := by
  rw [ES.disconnect, setState_pending]
  show st.clearTimers.pendingReconnect = 0
  exact clearTimers_pending_eq_zero st h1 h2

theorem onOpen_pending (st : ES) :
    st.onOpen.pendingReconnect = st.pendingReconnect := by
  show (st.setState ConnState.connected).pendingReconnect = st.pendingReconnect
  exact setState_pending st _

/-- `handleError` passes the error-marked, closed state to the scheduler. -/
theorem handleError_eq (cfg : SSEConfig) (st : ES) :
    st.handleError cfg =
      ES.scheduleReconnect cfg
        { st with emitted := st.emitted ++ [EmitEvent.connError],
                  esOpen := false } := rfl

/-- `scheduleReconnect` nets one new pending reconnect task below the retry
cap and none at or above it — it never cancels one. -/
theorem scheduleReconnect_pending (cfg : SSEConfig) (st : ES) :
    (st.scheduleReconnect cfg).pendingReconnect =
      if cfg.MAX_RETRIES ≤ st.reconnectAttempts then st.pendingReconnect
      else st.pendingReconnect + 1 := by
  by_cases hC : cfg.MAX_RETRIES ≤ st.reconnectAttempts
  · rw [ES.scheduleReconnect, if_pos hC, if_pos hC, setState_pending]
  · rw [ES.scheduleReconnect, if_neg hC, if_neg hC]
    show (st.setState ConnState.reconnecting).pendingReconnect + 1 =
      st.pendingReconnect + 1
    rw [setState_pending]

theorem scheduleReconnect_esOpen (cfg : SSEConfig) (st : ES) :
    (st.scheduleReconnect cfg).esOpen = st.esOpen := by
  by_cases hC : cfg.MAX_RETRIES ≤ st.reconnectAttempts
  · rw [ES.scheduleReconnect, if_pos hC, setState_esOpen]
  · rw [ES.scheduleReconnect, if_neg hC]
    show (st.setState ConnState.reconnecting).esOpen = st.esOpen
    exact setState_esOpen st _

theorem scheduleReconnect_at_cap (cfg : SSEConfig) (st : ES)
    (hC : cfg.MAX_RETRIES ≤ st.reconnectAttempts) :
    (st.scheduleReconnect cfg).state = ConnState.fallback ∧
      (st.scheduleReconnect cfg).pendingReconnect = st.pendingReconnect ∧
      (st.scheduleReconnect cfg).reconnectAttempts = st.reconnectAttempts ∧
      (st.scheduleReconnect cfg).reconnectHandleLive = st.reconnectHandleLive := by
  rw [ES.scheduleReconnect, if_pos hC]
  exact ⟨setState_state st _, setState_pending st _, setState_attempts st _,
    setState_handleLive st _⟩

theorem scheduleReconnect_handleLive_below (cfg : SSEConfig) (st : ES)
    (hC : ¬ cfg.MAX_RETRIES ≤ st.reconnectAttempts) :
    (st.scheduleReconnect cfg).reconnectHandleLive = true := by
  rw [ES.scheduleReconnect, if_neg hC]

/-- Every step other than a heartbeat firing preserves `TimerInv`. -/
theorem timerInv_step (cfg : SSEConfig) (st : ES) (e : Ev)
    (hhb : e ≠ Ev.heartbeatFire) (hen : enabled st e = true)
    (hinv : TimerInv st) : TimerInv (step cfg st e) := by
  obtain ⟨h1, h2, h3⟩ := hinv
  cases e with
  | connectCall =>
    show TimerInv st.connect
    by_cases hs : st.state = ConnState.connected ∨ st.state = ConnState.connecting
    · rw [ES.connect, if_pos hs]; exact ⟨h1, h2, h3⟩
    · exact timerInv_of_zero _ (connect_proceed_pending st h1 h2 hs)
  | disconnectCall =>
    exact timerInv_of_zero _ (disconnect_pending st h1 h2)
  | opened =>
    exact timerInv_of_zero _ ((onOpen_pending st).trans (h3 hen))
  | message m =>
    show TimerInv (st.handleMessage m)
    cases m <;> exact ⟨h1, h2, h3⟩
  | transportError =>
    have hes : st.esOpen = true := hen
    have hp : st.pendingReconnect = 0 := h3 hes
    show TimerInv (st.handleError cfg)
    rw [handleError_eq]
    set st1 : ES :=
      ({ st with emitted := st.emitted ++ [EmitEvent.connError],
                 esOpen := false } : ES) with hst1
    refine ⟨?_, ?_, ?_⟩
    · rw [scheduleReconnect_pending]
      split <;> simp [hst1, hp]
    · intro hq
      rw [scheduleReconnect_pending] at hq
      by_cases hC : cfg.MAX_RETRIES ≤ st1.reconnectAttempts
      · rw [if_pos hC] at hq
        simp [hst1, hp] at hq
      · exact scheduleReconnect_handleLive_below cfg st1 hC
    · intro hq
      rw [scheduleReconnect_esOpen] at hq
      simp [hst1] at hq
  | heartbeatFire => exact absurd rfl hhb
  | reconnectFire viaHandle =>
    cases viaHandle with
    | true =>
      show TimerInv (ES.connect { st with
        pendingReconnect := st.pendingReconnect - 1,
        reconnectHandleLive := false })
      set st1 : ES := ({ st with
        pendingReconnect := st.pendingReconnect - 1,
        reconnectHandleLive := false } : ES) with hst1
      have hz : st1.pendingReconnect = 0 := by
        rw [hst1]
        show st.pendingReconnect - 1 = 0
        omega
      by_cases hs : st1.state = ConnState.connected ∨
          st1.state = ConnState.connecting
      · rw [ES.connect, if_pos hs]
        exact timerInv_of_zero st1 hz
      · exact timerInv_of_zero _
          (connect_proceed_pending st1 (by omega) (fun h => absurd h (by omega)) hs)
    | false =>
      exfalso
      have hen2 : ((if st.reconnectHandleLive then 1 else 0) <
          st.pendingReconnect) := by
        have := hen
        simpa [enabled] using this
      by_cases hl : st.reconnectHandleLive = true
      · rw [if_pos hl] at hen2; omega
      · rw [if_neg hl] at hen2
        exact hl (h2 (by omega))

theorem clearTimers_pending_le (st : ES) :
    st.clearTimers.pendingReconnect ≤ st.pendingReconnect := by
  rw [ES.clearTimers]
  rcases hb : st.reconnectHandleLive with _ | _ <;> simp [hb] <;> omega

theorem connect_pending_le (st : ES) :
    st.connect.pendingReconnect ≤ st.pendingReconnect := by
  rw [ES.connect]
  split
  · exact le_rfl
  · show (st.setState ConnState.connecting).clearTimers.pendingReconnect ≤
      st.pendingReconnect
    exact (clearTimers_pending_le _).trans (le_of_eq (setState_pending st _))

theorem disconnect_pending_le (st : ES) :
    st.disconnect.pendingReconnect ≤ st.pendingReconnect := by
  rw [ES.disconnect, setState_pending]
  show st.clearTimers.pendingReconnect ≤ _
  exact clearTimers_pending_le st

theorem scheduleReconnect_state_below (cfg : SSEConfig) (st : ES)
    (hC : ¬ cfg.MAX_RETRIES ≤ st.reconnectAttempts) :
    (st.scheduleReconnect cfg).state = ConnState.reconnecting := by
  rw [ES.scheduleReconnect, if_neg hC]
  show (st.setState ConnState.reconnecting).state = _
  exact setState_state st _

theorem connect_state_ne_fallback (st : ES) :
    st.connect.state ≠ ConnState.fallback := by
  rw [ES.connect]
  split
  · rename_i h
    intro hf
    rcases h with h | h <;> rw [h] at hf <;> cases hf
  · intro hf
    have hf2 : (st.setState ConnState.connecting).state = ConnState.fallback := hf
    rw [setState_state] at hf2
    cases hf2

theorem handleMessage_state (st : ES) (m : Msg) :
    (st.handleMessage m).state = st.state := by
  cases m <;> rfl

theorem onOpen_state (st : ES) : st.onOpen.state = ConnState.connected := by
  show (st.setState ConnState.connected).state = _
  exact setState_state st _

/-- In any state reached as `fallback`, the transport is closed and the attempt
counter is at or above the retry cap (it is only reset on a successful open). -/
def FallbackInv (cfg : SSEConfig) (st : ES) : Prop :=
  st.state = ConnState.fallback →
    st.esOpen = false ∧ cfg.MAX_RETRIES ≤ st.reconnectAttempts

theorem fallbackInv_init (cfg : SSEConfig) : FallbackInv cfg ES.init :=
  fun h => nomatch h

/-- `handleError` establishes `FallbackInv` outright: it enters `fallback`
only at the cap, with the transport closed and the counter untouched. -/
theorem handleError_fallbackInv (cfg : SSEConfig) (st : ES) :
    FallbackInv cfg (st.handleError cfg) := by
  rw [handleError_eq]
  set st1 : ES := ({ st with emitted := st.emitted ++ [EmitEvent.connError],
                             esOpen := false } : ES) with hst1
  intro hf
  by_cases hC : cfg.MAX_RETRIES ≤ st1.reconnectAttempts
  · refine ⟨?_, ?_⟩
    · rw [scheduleReconnect_esOpen, hst1]
    · rw [(scheduleReconnect_at_cap cfg st1 hC).2.2.1]
      exact hC
  · rw [scheduleReconnect_state_below cfg st1 hC] at hf
    cases hf

/-- At or above the cap, `handleError` lands in `fallback` without touching
the pending reconnect tasks. -/
theorem handleError_at_cap (cfg : SSEConfig) (st : ES)
    (hC : cfg.MAX_RETRIES ≤ st.reconnectAttempts) :
    (st.handleError cfg).state = ConnState.fallback ∧
      (st.handleError cfg).pendingReconnect = st.pendingReconnect := by
  rw [handleError_eq]
  set st1 : ES := ({ st with emitted := st.emitted ++ [EmitEvent.connError],
                             esOpen := false } : ES) with hst1
  have hC1 : cfg.MAX_RETRIES ≤ st1.reconnectAttempts := hC
  obtain ⟨ha, hb, _, _⟩ := scheduleReconnect_at_cap cfg st1 hC1
  exact ⟨ha, hb⟩

theorem fallbackInv_step (cfg : SSEConfig) (st : ES) (e : Ev)
    (hen : enabled st e = true) (hinv : FallbackInv cfg st) :
    FallbackInv cfg (step cfg st e) := by
  cases e with
  | connectCall =>
    show FallbackInv cfg st.connect
    exact fun hf => absurd hf (connect_state_ne_fallback st)
  | disconnectCall =>
    show FallbackInv cfg st.disconnect
    intro hf
    rw [disconnect_state] at hf
    cases hf
  | opened =>
    show FallbackInv cfg st.onOpen
    intro hf
    rw [onOpen_state] at hf
    cases hf
  | message m =>
    show FallbackInv cfg (st.handleMessage m)
    intro hf
    rw [handleMessage_state] at hf
    have hes : st.esOpen = true := hen
    rw [(hinv hf).1] at hes
    cases hes
  | transportError =>
    exact handleError_fallbackInv cfg st
  | heartbeatFire =>
    exact handleError_fallbackInv cfg ({ st with heartbeat := false } : ES)
  | reconnectFire b =>
    show FallbackInv cfg (ES.connect ({ st with
      pendingReconnect := st.pendingReconnect - 1,
      reconnectHandleLive := if b then false else st.reconnectHandleLive } : ES))
    exact fun hf => absurd hf (connect_state_ne_fallback _)

/-- C7 (amended): `connect()` and `disconnect()` clear the pending reconnect
timer, but `scheduleReconnect` itself never cancels one — below the retry cap
it strictly adds a pending task, overwriting the handle.  Consequently the
"at most one reconnect timer pending" invariant holds along every valid run in
which no heartbeat timeout fires (a heartbeat timeout during a pending
reconnect schedules a second timer, see the counterexample). -/
theorem c7_single_pending_reconnect (cfg : SSEConfig) (evs : List Ev) (st : ES)
    (hreach : runValid cfg ES.init evs = some st)
    (hnohb : ∀ e ∈ evs, e ≠ Ev.heartbeatFire) :
    st.pendingReconnect ≤ 1 ∧
      (¬ cfg.MAX_RETRIES ≤ st.reconnectAttempts →
        (st.scheduleReconnect cfg).pendingReconnect =
          st.pendingReconnect + 1) := by
  have hinv := runValid_invariant_of_mem cfg TimerInv
    (fun e => e ≠ Ev.heartbeatFire)
    (fun s e ha he hi => timerInv_step cfg s e ha he hi)
    evs ES.init st hnohb timerInv_init hreach
  refine ⟨hinv.1, fun hC => ?_⟩
  rw [scheduleReconnect_pending, if_neg hC]

/-- Counterexample to C7 as stated: connect, open, then a transport error
(first reconnect timer scheduled) followed by the still-armed heartbeat timer
firing — the scheduler creates a second reconnect timer while the first is
still pending, because it overwrites the handle without clearing it. -/
theorem c7_counterexample :
    ∃ st1 st2 : ES,
      runValid sseConfigExample ES.init
        [Ev.connectCall, Ev.opened, Ev.transportError] = some st1 ∧
      st1.pendingReconnect = 1 ∧ st1.heartbeat = true ∧
      runValid sseConfigExample ES.init
        [Ev.connectCall, Ev.opened, Ev.transportError, Ev.heartbeatFire] =
        some st2 ∧
      st2.pendingReconnect = 2 :=
  ⟨_, _, rfl, rfl, rfl, rfl, rfl⟩

/-- Witness for C7 (amended) on the heartbeat-free run connect / open /
transport-error. -/
theorem c7_single_pending_reconnect_witness :
    ∃ st : ES,
      runValid sseConfigExample ES.init
        [Ev.connectCall, Ev.opened, Ev.transportError] = some st ∧
      (st.pendingReconnect ≤ 1 ∧
        (¬ sseConfigExample.MAX_RETRIES ≤ st.reconnectAttempts →
          (st.scheduleReconnect sseConfigExample).pendingReconnect =
            st.pendingReconnect + 1)) := by
  refine ⟨_, rfl, c7_single_pending_reconnect sseConfigExample
    [Ev.connectCall, Ev.opened, Ev.transportError] _ rfl ?_⟩
  intro e he
  simp only [List.mem_cons, List.not_mem_nil, or_false] at he
  rcases he with h | h | h <;> subst h <;> exact fun hcon => Ev.noConfusion hcon

/-- The event trace refuting "fallback is terminal": with `MAX_RETRIES = 5`,
one transport error, the leaked heartbeat-era reconnect timer, and four
reconnect/error cycles drive the attempt counter to the cap; the final error
enters `fallback` while one (leaked) reconnect timer is still pending. -/
def c3Trace : List Ev :=
  [Ev.connectCall, Ev.opened, Ev.transportError, Ev.heartbeatFire,
   Ev.reconnectFire true, Ev.transportError,
   Ev.reconnectFire true, Ev.transportError,
   Ev.reconnectFire true, Ev.transportError,
   Ev.reconnectFire true, Ev.transportError]

/-- C3 (amended): a scheduler invocation with the attempt counter at or above
`MAX_RETRIES` transitions to `fallback` and schedules nothing (pending tasks
and counter unchanged), and from any reachable `fallback` state no step ever
schedules a reconnect (the pending count never grows) — but `fallback` is not
terminal for the manager itself: the only internal steps that leave it are
firings of reconnect timers scheduled before `fallback` was entered, which
re-invoke `connect` (see the counterexample). -/
theorem c3_fallback_terminal (cfg : SSEConfig) (evs : List Ev) (st : ES)
    (hreach : runValid cfg ES.init evs = some st) :
    (cfg.MAX_RETRIES ≤ st.reconnectAttempts →
      (st.scheduleReconnect cfg).state = ConnState.fallback ∧
      (st.scheduleReconnect cfg).pendingReconnect = st.pendingReconnect ∧
      (st.scheduleReconnect cfg).reconnectAttempts = st.reconnectAttempts) ∧
    (st.state = ConnState.fallback → ∀ e, enabled st e = true →
      (step cfg st e).pendingReconnect ≤ st.pendingReconnect ∧
      ((step cfg st e).state = ConnState.fallback ∨ e = Ev.connectCall ∨
        e = Ev.disconnectCall ∨ ∃ b, e = Ev.reconnectFire b)) := by
  have hfb : FallbackInv cfg st := runValid_invariant cfg (FallbackInv cfg)
    (fun s e he hi => fallbackInv_step cfg s e he hi) evs ES.init st
    (fallbackInv_init cfg) hreach
  constructor
  · intro hC
    obtain ⟨ha, hb, hc, _⟩ := scheduleReconnect_at_cap cfg st hC
    exact ⟨ha, hb, hc⟩
  · intro hf e hen
    obtain ⟨hes, hatt⟩ := hfb hf
    cases e with
    | connectCall =>
      exact ⟨connect_pending_le st, Or.inr (Or.inl rfl)⟩
    | disconnectCall =>
      exact ⟨disconnect_pending_le st, Or.inr (Or.inr (Or.inl rfl))⟩
    | opened =>
      have hes2 : st.esOpen = true := hen
      rw [hes] at hes2
      cases hes2
    | message m =>
      have hes2 : st.esOpen = true := hen
      rw [hes] at hes2
      cases hes2
    | transportError =>
      have hes2 : st.esOpen = true := hen
      rw [hes] at hes2
      cases hes2
    | heartbeatFire =>
      have h2 := handleError_at_cap cfg ({ st with heartbeat := false } : ES) hatt
      constructor
      · show (ES.handleError cfg
            ({ st with heartbeat := false } : ES)).pendingReconnect ≤
          st.pendingReconnect
        rw [h2.2]
      · exact Or.inl h2.1
    | reconnectFire b =>
      refine ⟨?_, Or.inr (Or.inr (Or.inr ⟨b, rfl⟩))⟩
      show (ES.connect ({ st with
        pendingReconnect := st.pendingReconnect - 1,
        reconnectHandleLive := if b then false else st.reconnectHandleLive } :
          ES)).pendingReconnect ≤ st.pendingReconnect
      exact (connect_pending_le _).trans (by show st.pendingReconnect - 1 ≤ _; omega)

/-- Counterexample to C3 as stated: along `c3Trace` the machine reaches
`fallback` with one reconnect timer still pending; that timer then fires — an
internal event, not an external `connect()` call — and the manager leaves
`fallback` for `connecting`. -/
theorem c3_counterexample :
    ∃ st fin : ES,
      runValid sseConfigExample ES.init c3Trace = some st ∧
      st.state = ConnState.fallback ∧ st.pendingReconnect = 1 ∧
      runValid sseConfigExample ES.init
        (c3Trace ++ [Ev.reconnectFire false]) = some fin ∧
      fin.state = ConnState.connecting :=
  ⟨_, _, rfl, rfl, rfl, rfl, rfl⟩

/-- Witness for C3 (amended) at the `fallback` state reached along `c3Trace`
under the concrete configuration. -/
theorem c3_fallback_terminal_witness :
    ∃ st : ES,
      runValid sseConfigExample ES.init c3Trace = some st ∧
      ((sseConfigExample.MAX_RETRIES ≤ st.reconnectAttempts →
        (st.scheduleReconnect sseConfigExample).state = ConnState.fallback ∧
        (st.scheduleReconnect sseConfigExample).pendingReconnect =
          st.pendingReconnect ∧
        (st.scheduleReconnect sseConfigExample).reconnectAttempts =
          st.reconnectAttempts) ∧
      (st.state = ConnState.fallback → ∀ e, enabled st e = true →
        (step sseConfigExample st e).pendingReconnect ≤ st.pendingReconnect ∧
        ((step sseConfigExample st e).state = ConnState.fallback ∨
          e = Ev.connectCall ∨ e = Ev.disconnectCall ∨
          ∃ b, e = Ev.reconnectFire b))) :=
  ⟨_, rfl, c3_fallback_terminal sseConfigExample c3Trace _ rfl⟩

/-! ### Import progress counters -/

/-- Componentwise order on the four loop-incremented progress counters. -/
def ProgLE (p q : Progress) : Prop :=
  p.processedRecords ≤ q.processedRecords ∧
    p.importedRecords ≤ q.importedRecords ∧
    p.skippedRecords ≤ q.skippedRecords ∧
    p.errorRecords ≤ q.errorRecords

theorem progLE_refl (p : Progress) : ProgLE p p :=
  ⟨le_rfl, le_rfl, le_rfl, le_rfl⟩

theorem progLE_trans (p q r : Progress) (h1 : ProgLE p q) (h2 : ProgLE q r) :
    ProgLE p r :=
  ⟨h1.1.trans h2.1, h1.2.1.trans h2.2.1, h1.2.2.1.trans h2.2.2.1,
    h1.2.2.2.trans h2.2.2.2⟩

/-- Each processed record has `processed = imported + updated + skipped + errors`
as a loop invariant (each record increments `processed` and exactly one
outcome counter; `updated` is never incremented in this version). -/
def Balanced (p : Progress) : Prop :=
  p.processedRecords =
    p.importedRecords + p.updatedRecords + p.skippedRecords + p.errorRecords

theorem recordStep_mono (serverId : String) (userMap : ℕ → Option String)
    (geo : String → Geo) (st : Db × Progress) (x : HistoryRecord × Bool) :
    ProgLE st.2 (recordStep serverId userMap geo st x).2 := by
  unfold ProgLE
  rcases hout : (importRecord serverId userMap geo st.1 x.1 x.2).2 with _ | _ | _ <;>
    simp [recordStep, hout] <;> omega

theorem recordStep_balanced (serverId : String) (userMap : ℕ → Option String)
    (geo : String → Geo) (st : Db × Progress) (x : HistoryRecord × Bool)
    (h : Balanced st.2) : Balanced (recordStep serverId userMap geo st x).2 := by
  unfold Balanced at h ⊢
  rcases hout : (importRecord serverId userMap geo st.1 x.1 x.2).2 with _ | _ | _ <;>
    simp [recordStep, hout] <;> omega

theorem recordStep_updated (serverId : String) (userMap : ℕ → Option String)
    (geo : String → Geo) (st : Db × Progress) (x : HistoryRecord × Bool) :
    (recordStep serverId userMap geo st x).2.updatedRecords =
      st.2.updatedRecords := by
  rcases hout : (importRecord serverId userMap geo st.1 x.1 x.2).2 with _ | _ | _ <;>
    simp [recordStep, hout]

theorem foldl_recordStep_mono (serverId : String) (userMap : ℕ → Option String)
    (geo : String → Geo) :
    ∀ (l : List (HistoryRecord × Bool)) (st : Db × Progress),
      ProgLE st.2 ((l.foldl (recordStep serverId userMap geo) st).2) := by
  intro l
  induction l with
  | nil => intro st; exact progLE_refl _
  | cons x xs ih =>
    intro st
    rw [List.foldl_cons]
    exact progLE_trans _ _ _ (recordStep_mono serverId userMap geo st x) (ih _)

theorem foldl_recordStep_balanced (serverId : String)
    (userMap : ℕ → Option String) (geo : String → Geo) :
    ∀ (l : List (HistoryRecord × Bool)) (st : Db × Progress), Balanced st.2 →
      Balanced ((l.foldl (recordStep serverId userMap geo) st).2) := by
  intro l
  induction l with
  | nil => intro st h; exact h
  | cons x xs ih =>
    intro st h
    rw [List.foldl_cons]
    exact ih _ (recordStep_balanced serverId userMap geo st x h)

theorem foldl_recordStep_updated (serverId : String)
    (userMap : ℕ → Option String) (geo : String → Geo) :
    ∀ (l : List (HistoryRecord × Bool)) (st : Db × Progress),
      ((l.foldl (recordStep serverId userMap geo) st).2).updatedRecords =
        st.2.updatedRecords := by
  intro l
  induction l with
  | nil => intro st; rfl
  | cons x xs ih =>
    intro st
    rw [List.foldl_cons, ih _, recordStep_updated]

/-- The job state after the first `k` records of the run (the total record
count is known before the loop starts, from the initial count query). -/
def importStateAfter (serverId : String) (userMap : ℕ → Option String)
    (geo : String → Geo) (db : Db) (records : List (HistoryRecord × Bool))
    (k : ℕ) : Db × Progress :=
  (records.take k).foldl (recordStep serverId userMap geo)
    (db, Progress.init records.length)

theorem runImport_eq_importStateAfter (serverId : String)
    (userMap : ℕ → Option String) (geo : String → Geo) (db : Db)
    (records : List (HistoryRecord × Bool)) :
    runImport serverId userMap geo db records =
      importStateAfter serverId userMap geo db records records.length := by
  rw [importStateAfter, List.take_length, runImport]

/-- C5: within one import job, each progress counter (processed, imported,
skipped, error) is monotonically non-decreasing over the job's lifetime
(state after `i` records vs. after `j ≥ i`), and at completion
`processed = imported + updated + skipped + errors` — each processed record
increments exactly one outcome counter; the `updated` counter is never
incremented by this version of `importHistory` and finishes at 0. -/
theorem c5_progress_counters (serverId : String) (userMap : ℕ → Option String)
    (geo : String → Geo) (db : Db) (records : List (HistoryRecord × Bool)) :
    (∀ i j : ℕ, i ≤ j →
      ProgLE (importStateAfter serverId userMap geo db records i).2
        (importStateAfter serverId userMap geo db records j).2) ∧
    Balanced (runImport serverId userMap geo db records).2 ∧
    (runImport serverId userMap geo db records).2.updatedRecords = 0 := by
  refine ⟨?_, ?_, ?_⟩
  · intro i j hij
    have hsplit : records.take j = records.take i ++ (records.take j).drop i := by
      conv_lhs => rw [← List.take_append_drop i (records.take j)]
      rw [List.take_take, min_eq_left hij]
    rw [importStateAfter, importStateAfter, hsplit, List.foldl_append]
    exact foldl_recordStep_mono serverId userMap geo _ _
  · rw [runImport]
    exact foldl_recordStep_balanced serverId userMap geo _ _ rfl
  · rw [runImport]
    rw [foldl_recordStep_updated serverId userMap geo _ _]
    rfl

/-! ### Dedup invariant of the import -/

/-- Number of persisted rows matching one (server, external-reference) pair. -/
def RefCount (rows : List SessionRow) (srv ref : String) : ℕ :=
  rows.countP (refMatch srv ref)

/-- The spec's invariant: at most one persisted row per (server,
external-reference) pair. -/
def AtMostOneRef (rows : List SessionRow) : Prop :=
  ∀ srv ref : String, RefCount rows srv ref ≤ 1

/-- Well-formedness of the modelled table: primary keys are below the key
generator's next value, are pairwise distinct, and the dedup invariant holds. -/
def GoodDb (db : Db) : Prop :=
  (∀ s ∈ db.rows, s.id < db.nextId) ∧
    ((db.rows.map fun s => s.id).Nodup ∧ AtMostOneRef db.rows)

theorem goodDb_empty (n : ℕ) : GoodDb { rows := [], nextId := n } :=
  ⟨by simp, by simp, fun srv ref => by simp [RefCount]⟩

theorem updateRows_map_id (rows : List SessionRow) (key : ℕ)
    (f : SessionRow → SessionRow) (hf : ∀ s, (f s).id = s.id) :
    ((updateRows rows key f).map fun s => s.id) = rows.map fun s => s.id := by
  rw [updateRows, List.map_map]
  apply List.map_congr_left
  intro s _
  by_cases h : s.id = key <;> simp [h, hf]

theorem updateRows_length (rows : List SessionRow) (key : ℕ)
    (f : SessionRow → SessionRow) :
    (updateRows rows key f).length = rows.length := by
  rw [updateRows, List.length_map]

theorem countP_updateRows (rows : List SessionRow) (key : ℕ)
    (f : SessionRow → SessionRow) (p : SessionRow → Bool)
    (hp : ∀ s, p (f s) = p s) :
    (updateRows rows key f).countP p = rows.countP p := by
  rw [updateRows, List.countP_map]
  apply List.countP_congr
  intro s _
  show p (if s.id = key then f s else s) = true ↔ p s = true
  by_cases h : s.id = key <;> simp [h, hp]

/-- Distinct primary keys: at most one row carries a given key. -/
theorem countP_id_le_one (rows : List SessionRow)
    (hnd : (rows.map fun s => s.id).Nodup) (key : ℕ) :
    rows.countP (fun s => s.id == key) ≤ 1 := by
  induction rows with
  | nil => simp
  | cons a l ih =>
    rw [List.map_cons, List.nodup_cons] at hnd
    rw [List.countP_cons]
    by_cases h : a.id = key
    · have hz : l.countP (fun s => s.id == key) = 0 := by
        rw [List.countP_eq_zero]
        intro b hb hpb
        refine hnd.1 (List.mem_map.mpr ⟨b, hb, ?_⟩)
        have hbk : b.id = key := by simpa using hpb
        rw [hbk, h]
      simp [hz, h]
    · have hfalse : (a.id == key) = false := by simpa using h
      rw [hfalse]
      simpa using ih hnd.2

/-- One record step preserves table well-formedness: the two dedup-update
paths patch fields that the reference predicate and the key either ignore or
(for the backfill) can only gain the looked-up-and-absent reference, and the
insert path appends a fresh key carrying a reference that was just verified
absent. -/
theorem importRecord_good (serverId : String) (userMap : ℕ → Option String)
    (geo : String → Geo) (db : Db) (r : HistoryRecord) (fails : Bool)
    (h : GoodDb db) : GoodDb (importRecord serverId userMap geo db r fails).1 := by
  obtain ⟨hbound, hnd, hone⟩ := h
  rw [importRecord]
  split
  · exact ⟨hbound, hnd, hone⟩
  · split
    · exact ⟨hbound, hnd, hone⟩
    · rename_i userId hu
      split
      · -- duplicate-by-reference: terminal-field update only
        rename_i existing hext
        refine ⟨?_, ?_, ?_⟩
        · intro s hs
          obtain ⟨s0, hs0, rfl⟩ := List.mem_map.mp hs
          by_cases hid : s0.id = existing.id <;> simp [hid] <;> exact hbound s0 hs0
        · show ((updateRows db.rows existing.id (patchByRef r existing)).map
            fun s => s.id).Nodup
          rw [updateRows_map_id db.rows existing.id (patchByRef r existing)
            fun s => rfl]
          exact hnd
        · show AtMostOneRef (updateRows db.rows existing.id (patchByRef r existing))
          intro srv2 ref2
          rw [RefCount, countP_updateRows db.rows existing.id
            (patchByRef r existing) (refMatch srv2 ref2) fun s => rfl]
          exact hone srv2 ref2
      · rename_i hext
        have hnoref : ∀ s ∈ db.rows, ¬ refMatch serverId r.reference_id s :=
          List.find?_eq_none.mp hext
        split
        · -- duplicate-by-time-window: backfill the external reference
          rename_i existingSession htime
          have hmem : existingSession ∈ db.rows :=
            List.mem_of_find?_eq_some htime
          have hesrv : existingSession.serverId = serverId := by
            have h2 := List.find?_some htime
            simp [timeMatch] at h2
            exact h2.1.1.1
          refine ⟨?_, ?_, ?_⟩
          · intro s hs
            obtain ⟨s0, hs0, rfl⟩ := List.mem_map.mp hs
            by_cases hid : s0.id = existingSession.id <;> simp [hid] <;>
              exact hbound s0 hs0
          · show ((updateRows db.rows existingSession.id (patchByTime r)).map
              fun s => s.id).Nodup
            rw [updateRows_map_id db.rows existingSession.id (patchByTime r)
              fun s => rfl]
            exact hnd
          · show AtMostOneRef (updateRows db.rows existingSession.id (patchByTime r))
            intro srv2 ref2
            rw [RefCount, updateRows, List.countP_map]
            by_cases hpair : srv2 = serverId ∧ ref2 = r.reference_id
            · obtain ⟨rfl, rfl⟩ := hpair
              refine le_trans (List.countP_mono_left ?_)
                (countP_id_le_one db.rows hnd existingSession.id)
              intro s hs hgs
              by_cases hid : s.id = existingSession.id
              · simpa using hid
              · rw [Function.comp, if_neg hid] at hgs
                exact absurd hgs (hnoref s hs)
            · refine le_trans (List.countP_mono_left ?_) (hone srv2 ref2)
              intro s hs hgs
              by_cases hid : s.id = existingSession.id
              · rw [Function.comp, if_pos hid] at hgs
                have hs2 : s = existingSession :=
                  List.inj_on_of_nodup_map hnd hs hmem hid
                have hsplit2 : s.serverId = srv2 ∧ r.reference_id = ref2 := by
                  simpa [refMatch, patchByTime] using hgs
                refine absurd ⟨?_, hsplit2.2.symm⟩ hpair
                rw [← hsplit2.1, hs2, hesrv]
              · rw [Function.comp, if_neg hid] at hgs
                exact hgs
        · -- new record: insert under a fresh key
          rename_i htime
          refine ⟨?_, ?_, ?_⟩
          · intro s hs
            rcases List.mem_append.mp hs with hs | hs
            · exact (hbound s hs).trans (Nat.lt_succ_self _)
            · rw [List.mem_singleton] at hs
              rw [hs]
              exact Nat.lt_succ_self _
          · show ((db.rows ++ [newSessionRow serverId userId geo db.nextId r]).map
              fun s => s.id).Nodup
            rw [List.map_append]
            refine List.nodup_append.mpr ⟨hnd, by simp, ?_⟩
            intro a ha hb
            simp at hb
            obtain ⟨s0, hs0, hid⟩ := List.mem_map.mp ha
            rw [← hid] at hb
            have hlt := hbound s0 hs0
            rw [show (newSessionRow serverId userId geo db.nextId r).id =
              db.nextId from rfl] at hb
            omega
          · show AtMostOneRef
              (db.rows ++ [newSessionRow serverId userId geo db.nextId r])
            intro srv2 ref2
            rw [RefCount, List.countP_append]
            by_cases hm : refMatch srv2 ref2
                (newSessionRow serverId userId geo db.nextId r) = true
            · have hpair : serverId = srv2 ∧ r.reference_id = ref2 := by
                simpa [refMatch, newSessionRow] using hm
              have hz : db.rows.countP (refMatch srv2 ref2) = 0 := by
                rw [List.countP_eq_zero]
                intro s hs
                rw [← hpair.1, ← hpair.2]
                exact hnoref s hs
              simp [hz, hm]
            · have hm2 : refMatch srv2 ref2
                  (newSessionRow serverId userId geo db.nextId r) = false := by
                simpa using hm
              simp [hm2]
              exact hone srv2 ref2

/-- The db component of a `recordStep` is the `importRecord` result. -/
theorem recordStep_db (serverId : String) (userMap : ℕ → Option String)
    (geo : String → Geo) (st : Db × Progress) (x : HistoryRecord × Bool) :
    (recordStep serverId userMap geo st x).1 =
      (importRecord serverId userMap geo st.1 x.1 x.2).1 := by
  rcases hout : (importRecord serverId userMap geo st.1 x.1 x.2).2 with _ | _ | _ <;>
    simp [recordStep, hout]

theorem foldl_recordStep_good (serverId : String) (userMap : ℕ → Option String)
    (geo : String → Geo) :
    ∀ (l : List (HistoryRecord × Bool)) (st : Db × Progress), GoodDb st.1 →
      GoodDb ((l.foldl (recordStep serverId userMap geo) st).1) := by
  intro l
  induction l with
  | nil => intro st h; exact h
  | cons x xs ih =>
    intro st h
    rw [List.foldl_cons]
    apply ih
    rw [recordStep_db]
    exact importRecord_good serverId userMap geo st.1 x.1 x.2 h

/-- C1: a record whose external reference already matches a persisted row of
the server performs no insert — the table keeps its length and key generator,
the matched row is patched with the terminal fields, and the record is counted
(as skipped) — and consequently, starting from any well-formed table, after
any sequence of imported record batches each (server, external-reference) pair
still has at most one persisted row. -/
theorem c1_dedup_invariant (serverId : String) (userMap : ℕ → Option String)
    (geo : String → Geo) (db : Db) (hdb : GoodDb db) :
    (∀ (r : HistoryRecord) (existing : SessionRow),
      (userMap r.user_id).isSome = true →
      db.rows.find? (refMatch serverId r.reference_id) = some existing →
      (importRecord serverId userMap geo db r false).1.rows =
        updateRows db.rows existing.id (patchByRef r existing) ∧
      (importRecord serverId userMap geo db r false).1.rows.length =
        db.rows.length ∧
      (importRecord serverId userMap geo db r false).1.nextId = db.nextId ∧
      (importRecord serverId userMap geo db r false).2 = Outcome.skipped) ∧
    (∀ batch : List (HistoryRecord × Bool),
      GoodDb (runImport serverId userMap geo db batch).1 ∧
      AtMostOneRef (runImport serverId userMap geo db batch).1.rows) := by
  constructor
  · intro r existing hu hext
    rcases hu2 : userMap r.user_id with _ | userId
    · rw [hu2] at hu; cases hu
    · rw [importRecord]
      simp only [hu2, hext, Bool.false_eq_true, if_false]
      exact ⟨trivial, updateRows_length _ _ _, trivial, trivial⟩
  · intro batch
    have hg := foldl_recordStep_good serverId userMap geo batch
      (db, Progress.init batch.length) hdb
    exact ⟨hg, hg.2.2⟩

/-- A concrete history record used by the C1 witness. -/
def sampleRecord : HistoryRecord :=
  { reference_id := "ref-1", user_id := 7, rating_key := "rk-9",
    started := 100, stopped := 200, duration := 100, percent_complete := 50,
    session_key := none, media_type := "episode", full_title := "S1E1",
    title := "E1", ip_address := "1.2.3.4", platform := "web",
    player := "tv", product := "plex", transcode_decision := "transcode" }

/-- Witness for C1: importing `sampleRecord` twice into an empty table under a
mapping that knows its user keeps the table well-formed (in particular, at
most one row per (server, external-reference) pair). -/
theorem c1_dedup_invariant_witness :
    GoodDb { rows := [], nextId := 0 } ∧
    GoodDb (runImport "srv" (fun _ => some "u")
      (fun _ => { city := none, country := none, lat := none, lon := none })
      { rows := [], nextId := 0 }
      [(sampleRecord, false), (sampleRecord, false)]).1 ∧
    AtMostOneRef (runImport "srv" (fun _ => some "u")
      (fun _ => { city := none, country := none, lat := none, lon := none })
      { rows := [], nextId := 0 }
      [(sampleRecord, false), (sampleRecord, false)]).1.rows := by
  refine ⟨goodDb_empty 0, ?_⟩
  exact (c1_dedup_invariant "srv" (fun _ => some "u")
    (fun _ => { city := none, country := none, lat := none, lon := none })
    { rows := [], nextId := 0 } (goodDb_empty 0)).2
    [(sampleRecord, false), (sampleRecord, false)]

end Tracearr
